import Mathlib

set_option maxRecDepth 100000

/-!
Verification development for a spreadsheet-reading library consisting of two
source files: `lib.rs` (workbook facade, worksheet XML range builder, A1
dimension parsing) and `vba.rs` (OLE/CFB compound-file container, MS-OVBA RLE
decompressor, VBA `dir`-stream reference parser).

The embedding is shallow and executable:
* bytes are `Nat` values (< 256 in every image we build);
* Rust machine integers are `Nat` with explicit `% 2^w` where wrapping can
  occur (noted at each site);
* fallible code returns `PResult`, which distinguishes a returned error
  (`ExcelResult::Err` in the source) from a Rust panic (out-of-bounds
  indexing / failed `assert!`) and from non-termination of a source loop
  (`diverge`, produced when an explicit fuel bound is exhausted; the fuel
  bounds used are large enough that `diverge` is only reachable when the
  source loop really does not terminate, as argued at each definition);
* the XML pull parser (`quick_xml`, an external collaborator of the library)
  is modelled as a list of already-lexed events.
-/

/-- Outcome of running a piece of the library: a successful value, an error
returned to the caller (`ExcelResult::Err`), a Rust panic, or divergence of a
source-level loop. -/
inductive PResult (α : Type) where
  | ok (a : α)
  | error (e : String)
  | panic (msg : String)
  | diverge
deriving DecidableEq, Repr

def PResult.isOk {α : Type} : PResult α → Bool
  | .ok _ => true
  | _ => false

def PResult.toOption {α : Type} : PResult α → Option α
  | .ok a => some a
  | _ => none

/-- Reader monad over an in-memory byte stream: Rust code of the form
`let x = try!(r.read_xx()); ...` where `r : &mut &[u8]`. -/
def Pr (α : Type) : Type := List Nat → PResult (α × List Nat)

instance : Monad Pr where
  pure a := fun l => .ok (a, l)
  bind x f := fun l =>
    match x l with
    | .ok (a, l') => f a l'
    | .error e => .error e
    | .panic msg => .panic msg
    | .diverge => .diverge

/-- `r.read_u8()`: one byte, `Io` error at end of input. -/
def rdU8 : Pr Nat := fun l =>
  match l with
  | [] => .error "Io Eof"
  | b :: r => .ok (b, r)

/-- `r.read_exact(&mut buf[..n])`: exactly `n` bytes or an `Io` error. -/
def rdExact (n : Nat) : Pr (List Nat) := fun l =>
  if n ≤ l.length then .ok (l.take n, l.drop n) else .error "Io Eof"

/-- `r.read_u16::<LittleEndian>()`. -/
def rdU16 : Pr Nat := do
  let a ← rdU8
  let b ← rdU8
  pure (a + 256 * b)

/-- `r.read_u32::<LittleEndian>()`. -/
def rdU32 : Pr Nat := do
  let a ← rdU8
  let b ← rdU8
  let c ← rdU8
  let d ← rdU8
  pure (a + 256 * b + 65536 * c + 16777216 * d)

/-- `r.read_u64::<LittleEndian>()`. -/
def rdU64 : Pr Nat := do
  let lo ← rdU32
  let hi ← rdU32
  pure (lo + 4294967296 * hi)

/-- Read `n` consecutive little-endian `u32` values. -/
def rdU32List : Nat → Pr (List Nat)
  | 0 => pure []
  | n + 1 => do
    let x ← rdU32
    let rest ← rdU32List n
    pure (x :: rest)

/-- Little-endian byte encodings, used to build concrete test images. -/
def u16le (n : Nat) : List Nat := [n % 256, n / 256 % 256]

def u32le (n : Nat) : List Nat :=
  [n % 256, n / 256 % 256, n / 65536 % 256, n / 16777216 % 256]

/-- ASCII character-class tests matching the Rust range patterns
`'0'...'9'`, `'A'...'Z'`, `'a'...'z'`. -/
def isDigitB (c : Char) : Bool := 48 ≤ c.toNat && c.toNat ≤ 57

def isUpperB (c : Char) : Bool := 65 ≤ c.toNat && c.toNat ≤ 90

def isLowerB (c : Char) : Bool := 97 ≤ c.toNat && c.toNat ≤ 122

/-- Value of a decimal digit string (most significant first). -/
def digitsVal (l : List Char) : Nat :=
  l.foldl (fun acc c => acc * 10 + (c.toNat - 48)) 0

/-- Core of Rust unsigned `str::parse`: optional leading `'+'`, then a
non-empty run of ASCII digits, rejecting values above `maxVal` (overflow is a
`ParseIntError`, not wrapping). -/
def parseUnsigned (maxVal : Nat) (l : List Char) : Option Nat :=
  let t := match l with
    | c :: r => if c = '+' then r else l
    | [] => l
  if t.isEmpty then none
  else if t.all isDigitB then
    if digitsVal t ≤ maxVal then some (digitsVal t) else none
  else none

/-- `v.parse::<u32>()`. -/
def parseU32 (l : List Char) : Option Nat := parseUnsigned 4294967295 l

/-- `v.parse::<usize>()` (64-bit platform). -/
def parseUsize (l : List Char) : Option Nat := parseUnsigned 18446744073709551615 l

/-- `v.parse::<i64>()`: optional sign, digits, two's-complement i64 bounds. -/
def parseI64 (l : List Char) : Option Int :=
  match l with
  | '-' :: r =>
    if r ≠ [] && r.all isDigitB && digitsVal r ≤ 9223372036854775808 then
      some (-(digitsVal r : Int))
    else none
  | _ =>
    match parseUnsigned 9223372036854775807 l with
    | some n => some (n : Int)
    | none => none

/-- Shape check for Rust `str::parse::<f64>` on the common finite literal
forms `[sign] digits [. digits] [(e|E) [sign] digits]`.  No verified property
depends on binary64 values, so a float cell keeps its (validated) source
text; this predicate only decides the parse-success boundary for such
literals (special forms like `inf`/`NaN` are not modelled). -/
def isFloatLit (l : List Char) : Bool :=
  let t := match l with
    | c :: r => if c = '+' || c = '-' then r else l
    | [] => l
  let mantissa := t.takeWhile (fun c => isDigitB c || c = '.')
  let expPart := t.drop mantissa.length
  let mantissaOk :=
    !mantissa.isEmpty &&
    (mantissa.filter (fun c => c = '.')).length ≤ 1 &&
    !(mantissa.all (fun c => c = '.'))
  let expOk :=
    match expPart with
    | [] => true
    | e :: rest =>
      (e = 'e' || e = 'E') &&
      (let rest' := match rest with
        | c :: r2 => if c = '+' || c = '-' then r2 else rest
        | [] => rest
       !rest'.isEmpty && rest'.all isDigitB)
  mantissaOk && expOk

/-- UTF-8 decoding (`String::from_utf8` / `str::from_utf8`): `none` on any
malformed, overlong, surrogate or out-of-range sequence. -/
def utf8Cont (b : Nat) : Bool := 0x80 ≤ b && b < 0xC0

def utf8Decode : List Nat → Option (List Char)
  | [] => some []
  | b :: rest =>
    if b < 0x80 then (utf8Decode rest).map (fun cs => Char.ofNat b :: cs)
    else if b < 0xC2 then none
    else if b < 0xE0 then
      match rest with
      | b2 :: r =>
        if utf8Cont b2 then
          (utf8Decode r).map (fun cs => Char.ofNat ((b - 0xC0) * 64 + (b2 - 0x80)) :: cs)
        else none
      | [] => none
    else if b < 0xF0 then
      match rest with
      | b2 :: rest2 =>
        match rest2 with
        | b3 :: r =>
          if utf8Cont b2 && utf8Cont b3 then
            let cp := (b - 0xE0) * 4096 + (b2 - 0x80) * 64 + (b3 - 0x80)
            if 0x800 ≤ cp && (cp < 0xD800 || 0xDFFF < cp) then
              (utf8Decode r).map (fun cs => Char.ofNat cp :: cs)
            else none
          else none
        | [] => none
      | [] => none
    else if b < 0xF5 then
      match rest with
      | b2 :: rest2 =>
        match rest2 with
        | b3 :: rest3 =>
          match rest3 with
          | b4 :: r =>
            if utf8Cont b2 && utf8Cont b3 && utf8Cont b4 then
              let cp := (b - 0xF0) * 262144 + (b2 - 0x80) * 4096 +
                (b3 - 0x80) * 64 + (b4 - 0x80)
              if 0x10000 ≤ cp && cp ≤ 0x10FFFF then
                (utf8Decode r).map (fun cs => Char.ofNat cp :: cs)
              else none
            else none
          | [] => none
        | [] => none
      | [] => none
    else none

/-- `String::from_utf8(bytes)` with `try!`: a `FromUtf8Error` becomes a
returned error. -/
def strFromUtf8 (l : List Nat) : PResult String :=
  match utf8Decode l with
  | some cs => .ok (String.mk cs)
  | none => .error "Utf8"

/-- Pair up bytes of a UTF-16LE buffer into 16-bit code units. -/
def utf16Units : List Nat → List Nat
  | lo :: hi :: rest => (lo + 256 * hi) :: utf16Units rest
  | _ => []

/-- UTF-16 code units to characters with `DecoderTrap::Ignore`: unpaired
surrogates are skipped rather than reported. -/
def utf16Chars : List Nat → List Char
  | [] => []
  | [u] => if u < 0xD800 || 0xE000 ≤ u then [Char.ofNat u] else []
  | u :: v :: rest =>
    if u < 0xD800 || 0xE000 ≤ u then Char.ofNat u :: utf16Chars (v :: rest)
    else if u < 0xDC00 then
      if 0xDC00 ≤ v && v < 0xE000 then
        Char.ofNat (0x10000 + (u - 0xD800) * 1024 + (v - 0xDC00)) :: utf16Chars rest
      else utf16Chars (v :: rest)
    else utf16Chars (v :: rest)

/-! ## `lib.rs`: cell values, `Range`, A1 dimension parsing, worksheet parser -/

/-- `enum DataType { Int(i64), Float(f64), String(String), Empty }`.  A float
cell carries its validated source text (see `isFloatLit`); no claim in this
development observes a binary64 value. -/
inductive DataType where
  | int (i : Int)
  | float (raw : String)
  | string (s : String)
  | empty
deriving DecidableEq, Repr

/-- `struct Range { position: (u32, u32), size: (usize, usize), inner: Vec<DataType> }`. -/
structure Range where
  position : Nat × Nat
  size : Nat × Nat
  inner : List DataType
deriving DecidableEq, Repr

/-- `Range::default()`. -/
def Range.default : Range := ⟨(0, 0), (0, 0), []⟩

/-- The character loop of `get_row_column`, running over the reversed
characters of the input.  State: `(col, pow, rowpos, readrow)`.  The `u32`
accumulations `col += (c - 'A' + 1) * pow` and `pow *= 26` wrap modulo `2^32`
(release-build semantics; a debug build would panic on overflow, which no
input considered here triggers). -/
def grcLoop : List Char → Nat → Nat → Nat → Bool → PResult (Nat × Nat × Nat × Bool)
  | [], col, pow, rowpos, readrow => .ok (col, pow, rowpos, readrow)
  | c :: rest, col, pow, rowpos, readrow =>
    if isDigitB c then
      if readrow then grcLoop rest col pow (rowpos - 1) readrow
      else .error "Numeric character are only allowed at the end of the range"
    else if isUpperB c then
      grcLoop rest ((col + (c.toNat - 65 + 1) * pow) % 4294967296)
        (pow * 26 % 4294967296) rowpos false
    else if isLowerB c then
      grcLoop rest ((col + (c.toNat - 97 + 1) * pow) % 4294967296)
        (pow * 26 % 4294967296) rowpos false
    else .error "Expecting alphanumeric character"

/-- `get_row_column`: text range name to `(row, col)`.  `range[rowpos..]` is a
byte slice in the source; every input that survives the character loop is
pure ASCII, where byte and character positions coincide. -/
def get_row_column (range : String) : PResult (Nat × Nat) :=
  match grcLoop range.data.reverse 0 1 range.data.length true with
  | .ok (col, _, rowpos, _) =>
    match parseU32 (range.data.drop rowpos) with
    | some row => .ok (row, col)
    | none => .error "Parse"
  | .error e => .error e
  | .panic msg => .panic msg
  | .diverge => .diverge

/-- `(a - b) + 1` in wrapping `u32` arithmetic, as computed by
`get_dimension` for the extent components (release-build semantics; a debug
build would panic when `b > a`, which no input considered here triggers). -/
def u32SpanAdd1 (a b : Nat) : Nat :=
  ((a + 4294967296 - b) % 4294967296 + 1) % 4294967296

/-- `get_dimension`: an A1-style dimension string to
`(top-left (row, col), (bottom_right.0 - top_left.0 + 1, bottom_right.1 - top_left.1 + 1))`.
The `':'` position is a character index (`chars().position`); the source then
slices bytes with it, which agrees for the ASCII inputs considered here. -/
def get_dimension (dimension : String) : PResult ((Nat × Nat) × (Nat × Nat)) :=
  match dimension.data.findIdx? (fun c => c = ':') with
  | none =>
    match get_row_column dimension with
    | .ok position => .ok (position, (1, 1))
    | .error e => .error e
    | .panic msg => .panic msg
    | .diverge => .diverge
  | some p =>
    match get_row_column (String.mk (dimension.data.take p)) with
    | .ok top_left =>
      match get_row_column (String.mk (dimension.data.drop (p + 1))) with
      | .ok bottom_right =>
        .ok (top_left,
          (u32SpanAdd1 bottom_right.1 top_left.1, u32SpanAdd1 bottom_right.2 top_left.2))
      | .error e => .error e
      | .panic msg => .panic msg
      | .diverge => .diverge
    | .error e => .error e
    | .panic msg => .panic msg
    | .diverge => .diverge

/-- One lexed event of the XML pull parser (`quick_xml`, external
collaborator): element start with parsed attributes, element end, text
content, or a lexing error (`Err(e)` from the iterator). -/
inductive XmlEvent where
  | start (name : String) (attrs : List (String × String))
  | endTag (name : String)
  | text (s : String)
  | err
deriving DecidableEq, Repr

/-- Control state of the fused `from_worksheet` / `read_sheet_data` loop:
scanning the worksheet (`top`), inside `<sheetData>` (`inData`), or inside a
`<c>` element whose attributes are carried (`inCell`). -/
inductive WsMode where
  | top
  | inData
  | inCell (attrs : List (String × String))
deriving DecidableEq, Repr

/-- Value of one `<v>` text node, per `read_sheet_data`: if the `t` attribute
is `"s"`, parse a `usize` shared-string index and clone `strings[idx]`
(out-of-range indexing is a Rust panic, not a returned error); otherwise try
`i64`, then `f64`. -/
def cellValue (attrs : List (String × String)) (strings : List String)
    (v : String) : PResult DataType :=
  match attrs.find? (fun kv => kv.fst = "t") with
  | some kv =>
    if kv.snd = "s" then
      match parseUsize v.data with
      | some idx =>
        match strings.get? idx with
        | some s => .ok (.string s)
        | none => .panic "index out of bounds"
      | none => .error "Parse"
    else
      match parseI64 v.data with
      | some i => .ok (.int i)
      | none => if isFloatLit v.data then .ok (.float v) else .error "Parse"
  | none =>
    match parseI64 v.data with
    | some i => .ok (.int i)
    | none => if isFloatLit v.data then .ok (.float v) else .error "Parse"

/-- Fused event loop of `Range::from_worksheet` and
`Range::read_sheet_data`.  In `top` mode, a `<dimension ref="...">` start
sets `position`/`size` via `get_dimension` and `<sheetData>` enters `inData`
(`read_sheet_data` returns to the outer loop at `</sheetData>`, which is the
transition back to `top`).  In `inCell` mode the `xml.read_text(b"v")` call
is modelled by the two shapes a `<v>` element takes in the event list:
`start "v" :: text s :: endTag "v"` and `start "v" :: endTag "v"` (empty
text); any other continuation is an XML error, and a non-`v` child start is
the `"not v node"` error.  `</c>` without a value pushes `Empty`. -/
def wsLoop (strings : List String) : WsMode → Range → List XmlEvent → PResult Range
  | .top, data, [] => .ok data
  | .top, _, .err :: _ => .error "Xml"
  | .top, data, .start n attrs :: rest =>
    if n = "dimension" then
      match attrs.find? (fun kv => kv.fst = "ref") with
      | some kv =>
        match get_dimension kv.snd with
        | .ok (position, size) =>
          wsLoop strings .top { data with position := position, size := size } rest
        | .error e => .error e
        | .panic msg => .panic msg
        | .diverge => .diverge
      | none => .error "Expecting dimension"
    else if n = "sheetData" then wsLoop strings .inData data rest
    else wsLoop strings .top data rest
  | .top, data, .endTag _ :: rest => wsLoop strings .top data rest
  | .top, data, .text _ :: rest => wsLoop strings .top data rest
  | .inData, _, [] => .error "Could not find the sheetData end"
  | .inData, _, .err :: _ => .error "Xml"
  | .inData, data, .start n attrs :: rest =>
    if n = "c" then wsLoop strings (.inCell attrs) data rest
    else wsLoop strings .inData data rest
  | .inData, data, .endTag n :: rest =>
    if n = "sheetData" then wsLoop strings .top data rest
    else wsLoop strings .inData data rest
  | .inData, data, .text _ :: rest => wsLoop strings .inData data rest
  | .inCell _, _, [] => .error "End of xml"
  | .inCell _, _, .err :: _ => .error "Xml"
  | .inCell attrs, data, .start n _ :: .text s :: .endTag m :: rest =>
    if n = "v" then
      if m = "v" then
        match cellValue attrs strings s with
        | .ok value => wsLoop strings .inData { data with inner := data.inner ++ [value] } rest
        | .error e => .error e
        | .panic msg => .panic msg
        | .diverge => .diverge
      else .error "Xml"
    else .error "not v node"
  | .inCell attrs, data, .start n _ :: .endTag m :: rest =>
    if n = "v" then
      if m = "v" then
        match cellValue attrs strings "" with
        | .ok value => wsLoop strings .inData { data with inner := data.inner ++ [value] } rest
        | .error e => .error e
        | .panic msg => .panic msg
        | .diverge => .diverge
      else .error "Xml"
    else .error "not v node"
  | .inCell _, _, .start n _ :: _ =>
    if n = "v" then .error "Xml" else .error "not v node"
  | .inCell attrs, data, .endTag n :: rest =>
    if n = "c" then
      wsLoop strings .inData { data with inner := data.inner ++ [DataType.empty] } rest
    else wsLoop strings (.inCell attrs) data rest
  | .inCell attrs, data, .text _ :: rest => wsLoop strings (.inCell attrs) data rest

/-- `Range::from_worksheet(xml, strings)` on the lexed event list.  Starts
from `Range::default()`; `shrink_to_fit` has no observable effect. -/
def from_worksheet (strings : List String) (events : List XmlEvent) : PResult Range :=
  wsLoop strings .top Range.default events

/-- Number of cells the worksheet loop pushes while traversing the event
list: one per completed `<v>` value and one per `</c>` reached without a
value.  Mirrors the traversal of `wsLoop` (on the paths where `wsLoop` keeps
going; on error paths its value is irrelevant). -/
def countCells : WsMode → List XmlEvent → Nat
  | .top, [] => 0
  | .top, .err :: _ => 0
  | .top, .start n _ :: rest =>
    if n = "dimension" then countCells .top rest
    else if n = "sheetData" then countCells .inData rest
    else countCells .top rest
  | .top, .endTag _ :: rest => countCells .top rest
  | .top, .text _ :: rest => countCells .top rest
  | .inData, [] => 0
  | .inData, .err :: _ => 0
  | .inData, .start n attrs :: rest =>
    if n = "c" then countCells (.inCell attrs) rest
    else countCells .inData rest
  | .inData, .endTag n :: rest =>
    if n = "sheetData" then countCells .top rest
    else countCells .inData rest
  | .inData, .text _ :: rest => countCells .inData rest
  | .inCell _, [] => 0
  | .inCell _, .err :: _ => 0
  | .inCell _, .start n _ :: .text _ :: .endTag m :: rest =>
    if n = "v" then (if m = "v" then 1 + countCells .inData rest else 0) else 0
  | .inCell _, .start n _ :: .endTag m :: rest =>
    if n = "v" then (if m = "v" then 1 + countCells .inData rest else 0) else 0
  | .inCell _, .start _ _ :: _ => 0
  | .inCell attrs, .endTag n :: rest =>
    if n = "c" then 1 + countCells .inData rest
    else countCells (.inCell attrs) rest
  | .inCell attrs, .text _ :: rest => countCells (.inCell attrs) rest

/-! ## `vba.rs`: CFB container, sector chains, RLE decompressor, references -/

def OLE_SIGNATURE : List Nat := [0xD0, 0xCF, 0x11, 0xE0, 0xA1, 0xB1, 0x1A, 0xE1]

def ENDOFCHAIN : Nat := 0xFFFFFFFE

def FREESECT : Nat := 0xFFFFFFFF

/-- `struct Sector { data, size, fats }`. -/
structure Sector where
  data : List Nat
  size : Nat
  fats : List Nat
deriving DecidableEq, Repr

/-- `Sector::new`: `assert!(data.len() % size == 0)`. -/
def Sector.mkNew (data : List Nat) (size : Nat) : PResult Sector :=
  if data.length % size = 0 then .ok ⟨data, size, []⟩
  else .panic "assertion failed: data.len() % size == 0"

/-- `Sector::with_fats`. -/
def Sector.with_fats (s : Sector) (fats : List Nat) : Sector := { s with fats := fats }

/-- `Sector::get`: the slice `&data[id*size .. (id+1)*size]`; `none` models
the Rust slice-range panic when the end exceeds the buffer. -/
def Sector.sectGet? (s : Sector) (id : Nat) : Option (List Nat) :=
  if (id + 1) * s.size ≤ s.data.length then
    some ((s.data.drop (id * s.size)).take s.size)
  else none

/-- `Sector::read_chain` body with explicit fuel: follow `fats` next-pointers
until `ENDOFCHAIN`, concatenating sector contents.  Both the slice and the
`self.fats[id]` index are unchecked in the source, hence the panic
outcomes. -/
def readChainFuel (s : Sector) : Nat → Nat → PResult (List Nat)
  | 0, _ => .diverge
  | fuel + 1, id =>
    if id = ENDOFCHAIN then .ok []
    else
      match s.sectGet? id with
      | none => .panic "sector slice out of range"
      | some bytes =>
        match s.fats.get? id with
        | none => .panic "fat index out of range"
        | some nxt =>
          match readChainFuel s fuel nxt with
          | .ok rest => .ok (bytes ++ rest)
          | .error e => .error e
          | .panic msg => .panic msg
          | .diverge => .diverge

/-- `Sector::read_chain` with its canonical fuel `fats.length + 1`: a chain
that runs longer must revisit a sector id (every id that survives the FAT
lookup is `< fats.length`), and a revisited id loops forever in the source,
so `diverge` coincides with real non-termination. -/
def Sector.read_chain (s : Sector) (id : Nat) : PResult (List Nat) :=
  readChainFuel s (s.fats.length + 1) id

/-- The chain starting at `id` reaches `ENDOFCHAIN` within `n` FAT steps,
with every sector slice and FAT lookup in bounds. -/
def chainReachesEnd (s : Sector) : Nat → Nat → Bool
  | 0, id => id == ENDOFCHAIN
  | n + 1, id =>
    id == ENDOFCHAIN ||
      ((s.sectGet? id).isSome &&
        match s.fats.get? id with
        | some nxt => chainReachesEnd s n nxt
        | none => false)

/-- `read_chain` loops forever from `id` (no fuel bound returns). -/
def chainDiverges (s : Sector) (id : Nat) : Prop :=
  ∀ fuel, readChainFuel s fuel id = .diverge

/-- `struct Header` (only the fields the constructor consumes are ever read;
all are kept). -/
structure Header where
  ab_sig : List Nat
  clid : List Nat
  minor_version : Nat
  dll_version : Nat
  byte_order : Nat
  sector_shift : Nat
  mini_sector_shift : Nat
  reserved : Nat
  reserved1 : Nat
  reserved2 : Nat
  sect_fat_len : Nat
  sect_dir_start : Nat
  signature : Nat
  mini_sector_cutoff : Nat
  sect_mini_fat_start : Nat
  sect_mini_fat_len : Nat
  sect_dif_start : Nat
  sect_dif_len : Nat
  sect_fat : List Nat
deriving DecidableEq, Repr

/-- `Header::from_reader`: 512 bytes of sequential little-endian reads. -/
def headerFromReader : Pr Header := do
  let ab_sig ← rdExact 8
  let clid ← rdExact 16
  let minor_version ← rdU16
  let dll_version ← rdU16
  let byte_order ← rdU16
  let sector_shift ← rdU16
  let mini_sector_shift ← rdU16
  let reserved ← rdU16
  let reserved1 ← rdU32
  let reserved2 ← rdU32
  let sect_fat_len ← rdU32
  let sect_dir_start ← rdU32
  let signature ← rdU32
  let mini_sector_cutoff ← rdU32
  let sect_mini_fat_start ← rdU32
  let sect_mini_fat_len ← rdU32
  let sect_dif_start ← rdU32
  let sect_dif_len ← rdU32
  let sect_fat ← rdU32List 109
  pure ⟨ab_sig, clid, minor_version, dll_version, byte_order, sector_shift,
    mini_sector_shift, reserved, reserved1, reserved2, sect_fat_len,
    sect_dir_start, signature, mini_sector_cutoff, sect_mini_fat_start,
    sect_mini_fat_len, sect_dif_start, sect_dif_len, sect_fat⟩

/-- `struct Directory` (128-byte record; the source reads 126 bytes and
ignores the 2 trailing padding bytes). -/
structure Directory where
  ab : List Nat
  cb : Nat
  mse : Nat
  flags : Nat
  id_left_sib : Nat
  id_right_sib : Nat
  id_child : Nat
  cls_id : List Nat
  dw_user_flags : Nat
  time : List Nat
  sect_start : Nat
  ul_size : Nat
  dpt_prop_type : Nat
deriving DecidableEq, Repr

/-- `Directory::from_slice`. -/
def dirFromSlice : Pr Directory := do
  let ab ← rdExact 64
  let cb ← rdU16
  let mse ← rdU8
  let flags ← rdU8
  let id_left_sib ← rdU32
  let id_right_sib ← rdU32
  let id_child ← rdU32
  let cls_id ← rdExact 16
  let dw_user_flags ← rdU32
  let t1 ← rdU64
  let t2 ← rdU64
  let sect_start ← rdU32
  let ul_size ← rdU32
  let dpt_prop_type ← rdU16
  pure ⟨ab, cb, mse, flags, id_left_sib, id_right_sib, id_child, cls_id,
    dw_user_flags, [t1, t2], sect_start, ul_size, dpt_prop_type⟩

/-- `Directory::get_name`: UTF-16LE decode of the 64 name bytes with
`DecoderTrap::Ignore`, then truncation at the first NUL byte of the decoded
string (for the decoded text, the first 0 byte of its UTF-8 form is exactly
its first U+0000 character, so this is `takeWhile (≠ NUL)`). -/
def dirGetName (d : Directory) : String :=
  String.mk ((utf16Chars (utf16Units d.ab)).takeWhile (fun c => c ≠ Char.ofNat 0))

/-- `to_u32_vec`: `assert!(buffer.len() % 4 == 0)`, then read the buffer as
little-endian `u32` values. -/
def u32Group : List Nat → List Nat
  | a :: b :: c :: d :: rest =>
    (a + 256 * b + 65536 * c + 16777216 * d) :: u32Group rest
  | _ => []

def to_u32_vec (buffer : List Nat) : PResult (List Nat) :=
  if buffer.length % 4 = 0 then .ok (u32Group buffer)
  else .panic "assertion failed: buffer.len() % 4 == 0"

/-- The DIF walk of `VbaProject::new`: while the pointer is neither
`FREESECT` nor `ENDOFCHAIN`, append the pointed sector's `u32`s to the
FAT-sector list and pop the last entry as the next pointer.  Fuel: a
terminating walk visits pairwise-distinct sector ids (a repeated id repeats
the whole loop state forever — the source has a `TODO` about exactly this),
and each visited id must pass the slice bound, so any fuel of at least the
sector count of the image is enough; the caller passes the byte length of
the file. -/
def difWalk (sector : Sector) : Nat → List Nat → Nat → PResult (List Nat)
  | 0, _, _ => .diverge
  | fuel + 1, fat_sectors, sector_id =>
    if sector_id ≠ FREESECT ∧ sector_id ≠ ENDOFCHAIN then
      match sector.sectGet? sector_id with
      | none => .panic "sector slice out of range"
      | some bytes =>
        match to_u32_vec bytes with
        | .ok ids =>
          let fs := fat_sectors ++ ids
          match fs.getLast? with
          | some nxt => difWalk sector fuel fs.dropLast nxt
          | none => .panic "Option unwrap on None"
        | .error e => .error e
        | .panic msg => .panic msg
        | .diverge => .diverge
    else .ok fat_sectors

/-- FAT loading loop of `VbaProject::new`: for each FAT-sector id that is not
`FREESECT`, append that sector's `u32`s to the master FAT. -/
def loadFat (sector : Sector) : List Nat → List Nat → PResult (List Nat)
  | [], fat => .ok fat
  | id :: rest, fat =>
    if id ≠ FREESECT then
      match sector.sectGet? id with
      | none => .panic "sector slice out of range"
      | some bytes =>
        match to_u32_vec bytes with
        | .ok ids => loadFat sector rest (fat ++ ids)
        | .error e => .error e
        | .panic msg => .panic msg
        | .diverge => .diverge
    else loadFat sector rest fat

/-- `buffer.chunks(128)` (the final chunk may be shorter). -/
def chunks128Go : Nat → List Nat → List (List Nat)
  | 0, _ => []
  | _, [] => []
  | fuel + 1, b :: rest => (b :: rest).take 128 :: chunks128Go fuel ((b :: rest).drop 128)

def chunks128 (l : List Nat) : List (List Nat) := chunks128Go l.length l

/-- Directory-record parsing loop of `VbaProject::new`. -/
def parseDirs : List (List Nat) → PResult (List Directory)
  | [] => .ok []
  | c :: rest =>
    match dirFromSlice c with
    | .ok (d, _) =>
      match parseDirs rest with
      | .ok ds => .ok (d :: ds)
      | .error e => .error e
      | .panic msg => .panic msg
      | .diverge => .diverge
    | .error e => .error e
    | .panic msg => .panic msg
    | .diverge => .diverge

/-- `struct VbaProject`. -/
structure VbaProject where
  header : Header
  directories : List Directory
  sectors : Sector
  mini_sectors : Option Sector
deriving DecidableEq, Repr

/-- `VbaProject::new` on the full byte image `f` (`f.size()` is `f.length`).
Follows the source step by step: header parse (512 bytes), OLE signature
check, trailing-size check (`f.size() - 512` cannot underflow because the
header parse already consumed 512 bytes), DIF walk, FAT load, directory
chain, optional mini-stream.  `2u64.pow(sector_shift)` is modelled as plain
`2 ^ shift`; a `u16` shift large enough to overflow `u64` (≥ 64) would panic
in the source and is not exercised here. -/
def vbaNew (f : List Nat) : PResult VbaProject :=
  match headerFromReader f with
  | .error e => .error e
  | .panic msg => .panic msg
  | .diverge => .diverge
  | .ok (header, body) =>
    if header.ab_sig ≠ OLE_SIGNATURE then
      .error "invalid OLE signature (not an office document?)"
    else
      let sector_size := 2 ^ header.sector_shift
      if (f.length - 512) % sector_size ≠ 0 then
        .error "last sector has invalid size"
      else
        match Sector.mkNew body sector_size with
        | .error e => .error e
        | .panic msg => .panic msg
        | .diverge => .diverge
        | .ok sector =>
          match difWalk sector (f.length + 1) header.sect_fat header.sect_dif_start with
          | .error e => .error e
          | .panic msg => .panic msg
          | .diverge => .diverge
          | .ok fat_sectors =>
            match loadFat sector fat_sectors [] with
            | .error e => .error e
            | .panic msg => .panic msg
            | .diverge => .diverge
            | .ok fat =>
              let sectors := sector.with_fats fat
              match sectors.read_chain header.sect_dir_start with
              | .error e => .error e
              | .panic msg => .panic msg
              | .diverge => .diverge
              | .ok buffer =>
                match parseDirs (chunks128 buffer) with
                | .error e => .error e
                | .panic msg => .panic msg
                | .diverge => .diverge
                | .ok directories =>
                  match directories.get? 0 with
                  | none => .panic "index out of bounds"
                  | some dir0 =>
                    if dir0.sect_start = ENDOFCHAIN then
                      .ok ⟨header, directories, sectors, none⟩
                    else
                      match sectors.read_chain dir0.sect_start with
                      | .error e => .error e
                      | .panic msg => .panic msg
                      | .diverge => .diverge
                      | .ok ministream =>
                        let ministream := ministream.take dir0.ul_size
                        match sectors.read_chain header.sect_mini_fat_start with
                        | .error e => .error e
                        | .panic msg => .panic msg
                        | .diverge => .diverge
                        | .ok minifatBytes =>
                          match to_u32_vec minifatBytes with
                          | .error e => .error e
                          | .panic msg => .panic msg
                          | .diverge => .diverge
                          | .ok minifat =>
                            let mini_sector_size := 2 ^ header.mini_sector_shift
                            if dir0.ul_size % mini_sector_size ≠ 0 then
                              .panic "assertion failed: ul_size % mini_sector_size == 0"
                            else
                              match Sector.mkNew ministream mini_sector_size with
                              | .error e => .error e
                              | .panic msg => .panic msg
                              | .diverge => .diverge
                              | .ok mini =>
                                .ok ⟨header, directories, sectors,
                                  some (mini.with_fats minifat)⟩

/-- `VbaProject::get_stream`: linear scan of the directory for a name-equal
entry; below the mini-sector cutoff the bytes come from the mini pool when it
exists and are an empty vector otherwise (`map_or_else(|| Vec::new(), ...)`);
at or above the cutoff they come from the regular pool; the result is
truncated to the recorded size. -/
def VbaProject.get_stream (p : VbaProject) (name : String) : PResult (Option (List Nat)) :=
  match p.directories.find? (fun d => dirGetName d = name) with
  | none => .ok none
  | some d =>
    let chain : PResult (List Nat) :=
      if d.ul_size < p.header.mini_sector_cutoff then
        match p.mini_sectors with
        | none => .ok []
        | some s => s.read_chain d.sect_start
      else p.sectors.read_chain d.sect_start
    match chain with
    | .ok bytes => .ok (some (bytes.take d.ul_size))
    | .error e => .error e
    | .panic msg => .panic msg
    | .diverge => .diverge

/-- Executable ceiling base-2 logarithm: `clog2 d` is the least `k` with
`d ≤ 2^k` (and `0` for `d ≤ 1`).  The source computes it as
`(d as f64).log2().ceil() as u8` with a saturating cast (`-inf → 0` for
`d = 0`), which agrees with this integer version for every `d < 2^52`, far
beyond any decompressed-chunk length reachable here. -/
def clog2Go : Nat → Nat → Nat
  | 0, _ => 0
  | fuel + 1, m => if m ≤ 1 then 0 else 1 + clog2Go fuel ((m + 1) / 2)

def clog2 (n : Nat) : Nat := clog2Go n n

/-- The copy-token byte loop: `for i in 0..len { res.push(res[src + i]) }`
(self-overlapping copies re-read freshly pushed bytes).  Every access is in
bounds because the caller checks `offset ≤ res.length`, so the `getD`
default is never consulted. -/
def copyLoop : Nat → Nat → List Nat → List Nat
  | 0, _, res => res
  | len + 1, src, res => copyLoop len (src + 1) (res ++ [res.getD src 0])

/-- The per-flag-byte token loop of `decompress_stream`: `bitsLeft` counts
down from 8, so the current bit index is `8 - bitsLeft`.  Arithmetic notes
for the copy token, matching the source's release-build `u8`/`u16`
semantics: `bit_count = max(ceil(log2(d)), 4)` is at most 16 whenever the
within-chunk output is at most 65536 (always the case for well-formed MS-OVBA
chunks), in which range `0xFFFF >> bit_count` and `16 - bit_count` are the
plain operations written here; `res.len() - offset` underflows to a panic
when `offset` exceeds the output length. -/
def runBits : Nat → Nat → Nat → List Nat → List Nat → Nat → Nat →
    PResult (List Nat × List Nat × Nat)
  | 0, _, _, res, r, cur, _ => .ok (res, r, cur)
  | bitsLeft + 1, flag, dstart, res, r, cur, cend =>
    if cend ≤ cur then .ok (res, r, cur)
    else if flag.testBit (8 - (bitsLeft + 1)) = false then
      match r with
      | [] => .error "Io Eof"
      | b :: r' => runBits bitsLeft flag dstart (res ++ [b]) r' (cur + 1) cend
    else
      match r with
      | b0 :: b1 :: r' =>
        let token := b0 + 256 * b1
        let difference := res.length - dstart
        let bit_count := max (clog2 difference) 4
        let len_mask := 0xFFFF >>> (bit_count % 16)
        let offset_mask := 0xFFFF - len_mask
        let len := token.land len_mask + 3
        let temp1 := token.land offset_mask
        let temp2 := (16 - bit_count) % 16
        let offset := temp1 >>> temp2 + 1
        if res.length < offset then .panic "attempt to subtract with overflow"
        else runBits bitsLeft flag dstart (copyLoop len (res.length - offset) res)
          r' (cur + 2) cend
      | _ => .error "Io Eof"

/-- The `while compressed_current < compressed_end` loop of a compressed
chunk: read a flag byte, process up to 8 tokens.  Each iteration consumes at
least one input byte and advances `cur` by at least one, so the fuel
`cend + 1` passed by `chunksLoop` can never run out. -/
def chunkLoop : Nat → Nat → List Nat → List Nat → Nat → Nat →
    PResult (List Nat × List Nat)
  | 0, _, _, _, _, _ => .diverge
  | fuel + 1, dstart, res, r, cur, cend =>
    if cur < cend then
      match r with
      | [] => .error "Io Eof"
      | fb :: r1 =>
        match runBits 8 fb dstart res r1 (cur + 1) cend with
        | .ok (res', r', cur') => chunkLoop fuel dstart res' r' cur' cend
        | .error e => .error e
        | .panic msg => .panic msg
        | .diverge => .diverge
    else .ok (res, r)

/-- The `while !r.is_empty()` chunk loop of `decompress_stream`.  An
uncompressed chunk (`flag bit 15 = 0`) appends 4096 zero bytes and
`read_exact`s into them — an `Io` error when fewer than 4096 bytes remain.
A compressed chunk processes `min(r.len() as u16, (header & 0x0FFF) + 3)`
payload bytes (the `as u16` truncation is the `% 65536`).  Every iteration
consumes the 2 header bytes, so the fuel `input length + 1` can never run
out. -/
def chunksLoop : Nat → List Nat → List Nat → PResult (List Nat)
  | 0, _, _ => .diverge
  | fuel + 1, res, r =>
    match r with
    | [] => .ok res
    | [_] => .error "Io Eof"
    | b0 :: b1 :: r' =>
      let header := b0 + 256 * b1
      if header / 32768 = 0 then
        if 4096 ≤ r'.length then
          chunksLoop fuel (res ++ r'.take 4096) (r'.drop 4096)
        else .error "Io Eof"
      else
        let chunk_size := header % 4096 + 3
        let cend := min (r'.length % 65536) chunk_size
        match chunkLoop (cend + 1) res.length res r' 0 cend with
        | .ok (res', r'') => chunksLoop fuel res' r''
        | .error e => .error e
        | .panic msg => .panic msg
        | .diverge => .diverge

/-- `decompress_stream`: signature byte `0x01`, then the chunk loop. -/
def decompress_stream (input : List Nat) : PResult (List Nat) :=
  match input with
  | [] => .error "Io Eof"
  | b :: r => if b ≠ 1 then .error "invalid signature byte" else chunksLoop (r.length + 1) [] r

/-- `struct Reference { name, description, path }` (`PathBuf` as text). -/
structure Reference where
  name : String
  description : String
  path : String
deriving DecidableEq, Repr

/-- Append the in-flight reference if it has been named:
`if !reference.name.is_empty() { references.push(reference) }`. -/
def commitRef (refs : List Reference) (ref : Reference) : List Reference :=
  if ref.name.data.isEmpty then refs else refs ++ [ref]

/-- The record loop of `VbaProject::read_references`.  The scratch buffer in
the source is `[0; 512]`, so every length-prefixed read first slices
`buf[..len]` — a panic when `len > 512` — and only then `read_exact`s.  Fuel
counts loop iterations; each iteration consumes at least the 2-byte tag, so
the `stream length + 1` fuel passed by `read_references` can never run
out. -/
def refsLoop : Nat → List Reference → Reference → List Nat → PResult (List Reference)
  | 0, _, _, _ => .diverge
  | fuel + 1, refs, ref, stream =>
    match rdU16 stream with
    | .error e => .error e
    | .panic msg => .panic msg
    | .diverge => .diverge
    | .ok (check, s0) =>
      if check = 0x000F then .ok (commitRef refs ref)
      else if check = 0x0016 then
        match rdU32 s0 with
        | .error e => .error e
        | .panic msg => .panic msg
        | .diverge => .diverge
        | .ok (len, s1) =>
          if 512 < len then .panic "slice index out of range"
          else
            match rdExact len s1 with
            | .error e => .error e
            | .panic msg => .panic msg
            | .diverge => .diverge
            | .ok (nameBytes, s2) =>
              match strFromUtf8 nameBytes with
              | .error e => .error e
              | .panic msg => .panic msg
              | .diverge => .diverge
              | .ok name =>
                let newRef : Reference := ⟨name, name, "/"⟩
                match rdExact 2 s2 with
                | .error e => .error e
                | .panic msg => .panic msg
                | .diverge => .diverge
                | .ok (_, s3) =>
                  match rdU32 s3 with
                  | .error e => .error e
                  | .panic msg => .panic msg
                  | .diverge => .diverge
                  | .ok (ulen, s4) =>
                    if 512 < ulen then .panic "slice index out of range"
                    else
                      match rdExact ulen s4 with
                      | .error e => .error e
                      | .panic msg => .panic msg
                      | .diverge => .diverge
                      | .ok (_, s5) => refsLoop fuel (commitRef refs ref) newRef s5
      else if check = 0x0033 then
        match rdU32 s0 with
        | .error e => .error e
        | .panic msg => .panic msg
        | .diverge => .diverge
        | .ok (len, s1) =>
          if 512 < len then .panic "slice index out of range"
          else
            match rdExact len s1 with
            | .error e => .error e
            | .panic msg => .panic msg
            | .diverge => .diverge
            | .ok (_, s2) => refsLoop fuel refs ref s2
      else if check = 0x002F then
        match (do
            let _ ← rdExact 4
            let len ← rdU32
            pure len : Pr Nat) s0 with
        | .error e => .error e
        | .panic msg => .panic msg
        | .diverge => .diverge
        | .ok (len, s1) =>
          if 512 < len then .panic "slice index out of range"
          else
            match (do
                let _ ← rdExact len
                let _ ← rdExact 6
                rdU16 : Pr Nat) s1 with
            | .error e => .error e
            | .panic msg => .panic msg
            | .diverge => .diverge
            | .ok (w, s2) =>
              if w = 0x0016 then
                match rdU32 s2 with
                | .error e => .error e
                | .panic msg => .panic msg
                | .diverge => .diverge
                | .ok (len2, s3) =>
                  if 512 < len2 then .panic "slice index out of range"
                  else
                    match (do
                        let _ ← rdExact len2
                        let _ ← rdExact 2
                        rdU32 : Pr Nat) s3 with
                    | .error e => .error e
                    | .panic msg => .panic msg
                    | .diverge => .diverge
                    | .ok (len3, s4) =>
                      if 512 < len3 then .panic "slice index out of range"
                      else
                        match (do
                            let _ ← rdExact len3
                            let _ ← rdExact 2
                            let _ ← rdExact 4
                            rdU32 : Pr Nat) s4 with
                        | .error e => .error e
                        | .panic msg => .panic msg
                        | .diverge => .diverge
                        | .ok (len4, s5) =>
                          if 512 < len4 then .panic "slice index out of range"
                          else
                            match (do
                                let _ ← rdExact len4
                                rdExact 26 : Pr (List Nat)) s5 with
                            | .error e => .error e
                            | .panic msg => .panic msg
                            | .diverge => .diverge
                            | .ok (_, s6) => refsLoop fuel refs ref s6
              else
                match (do
                    let _ ← rdExact 4
                    rdU32 : Pr Nat) s2 with
                | .error e => .error e
                | .panic msg => .panic msg
                | .diverge => .diverge
                | .ok (len2, s3) =>
                  if 512 < len2 then .panic "slice index out of range"
                  else
                    match (do
                        let _ ← rdExact len2
                        rdExact 26 : Pr (List Nat)) s3 with
                    | .error e => .error e
                    | .panic msg => .panic msg
                    | .diverge => .diverge
                    | .ok (_, s4) => refsLoop fuel refs ref s4
      else if check = 0x000D then
        match (do
            let _ ← rdExact 4
            let len ← rdU32
            pure len : Pr Nat) s0 with
        | .error e => .error e
        | .panic msg => .panic msg
        | .diverge => .diverge
        | .ok (len, s1) =>
          if 512 < len then .panic "slice index out of range"
          else
            match rdExact len s1 with
            | .error e => .error e
            | .panic msg => .panic msg
            | .diverge => .diverge
            | .ok (libidBytes, s2) =>
              match strFromUtf8 libidBytes with
              | .error e => .error e
              | .panic msg => .panic msg
              | .diverge => .diverge
              | .ok libid =>
                let parts := (libid.splitOn "#").reverse
                let ref1 := match parts.get? 0 with
                  | some p => { ref with description := p }
                  | none => ref
                let ref2 := match parts.get? 1 with
                  | some p => { ref1 with path := p }
                  | none => ref1
                match rdExact 6 s2 with
                | .error e => .error e
                | .panic msg => .panic msg
                | .diverge => .diverge
                | .ok (_, s3) => refsLoop fuel refs ref2 s3
      else if check = 0x000E then
        match (do
            let _ ← rdExact 4
            let len ← rdU32
            pure len : Pr Nat) s0 with
        | .error e => .error e
        | .panic msg => .panic msg
        | .diverge => .diverge
        | .ok (len, s1) =>
          if 512 < len then .panic "slice index out of range"
          else
            match rdExact len s1 with
            | .error e => .error e
            | .panic msg => .panic msg
            | .diverge => .diverge
            | .ok (absBytes, s2) =>
              match strFromUtf8 absBytes with
              | .error e => .error e
              | .panic msg => .panic msg
              | .diverge => .diverge
              | .ok absolute =>
                let ref' := if absolute.startsWith "*\\C" then
                    { ref with path := absolute.drop 3 }
                  else { ref with path := absolute }
                match rdU32 s2 with
                | .error e => .error e
                | .panic msg => .panic msg
                | .diverge => .diverge
                | .ok (len2, s3) =>
                  if 512 < len2 then .panic "slice index out of range"
                  else
                    match (do
                        let _ ← rdExact len2
                        rdExact 6 : Pr (List Nat)) s3 with
                    | .error e => .error e
                    | .panic msg => .panic msg
                    | .diverge => .diverge
                    | .ok (_, s4) => refsLoop fuel refs ref' s4
      else .error "invalid of unknown check Id"

/-- `VbaProject::read_references` run on a decompressed `dir`-stream
suffix positioned at the reference section. -/
def read_references (stream : List Nat) : PResult (List Reference) :=
  refsLoop (stream.length + 1) [] ⟨"", "", "/"⟩ stream

/-! ## Concrete CFB images -/

/-- 64-byte UTF-16LE directory-entry name field for an ASCII name, padded
with NUL bytes. -/
def nameBytes64 (name : String) : List Nat :=
  let bs := name.data.flatMap (fun c => [c.toNat % 256, c.toNat / 256 % 256])
  bs ++ List.replicate (64 - bs.length) 0

/-- One 128-byte directory record with the given name, starting sector and
stream size (remaining fields zero / sentinel, unread by the code paths
exercised here). -/
def mkDirEntry (name : String) (start size : Nat) : List Nat :=
  nameBytes64 name ++ u16le ((name.length + 1) * 2) ++ [0, 0] ++
    u32le FREESECT ++ u32le FREESECT ++ u32le FREESECT ++
    List.replicate 16 0 ++ u32le 0 ++ List.replicate 16 0 ++
    u32le start ++ u32le size ++ u16le 0 ++ [0, 0]

/-- 512-byte CFB header for the test images: OLE signature,
`sector_shift = 7` (128-byte sectors), `mini_sector_shift = 6`, the given
cutoff and chain heads, one FAT sector (id 0), no DIF chain. -/
def mkHeader (cutoff minifat_start : Nat) : List Nat :=
  OLE_SIGNATURE ++ List.replicate 16 0 ++
    u16le 0 ++ u16le 0 ++ u16le 0 ++ u16le 7 ++ u16le 6 ++ u16le 0 ++
    u32le 0 ++ u32le 0 ++ u32le 1 ++ u32le 1 ++ u32le 0 ++ u32le cutoff ++
    u32le minifat_start ++ u32le 0 ++ u32le ENDOFCHAIN ++ u32le 0 ++
    ([0] ++ List.replicate 108 FREESECT).flatMap u32le

/-- FAT of image A (32 entries, one 128-byte FAT sector): the directory
chain is sectors 1→2→3→4, sector 5's next pointer is 5 itself (a FAT cycle),
sector 6 is a one-sector chain. -/
def fatSecA : List Nat :=
  [FREESECT, 2, 3, 4, ENDOFCHAIN, 5, ENDOFCHAIN] ++ List.replicate 25 FREESECT

/-- Content of image A's sector 6 (`"small"`'s would-be stream data). -/
def sector6A : List Nat := (List.range 128).map (fun i => 65 + i)

/-- Image A: a well-formed CFB image accepted by `VbaProject::new` (no mini
stream) whose directory contains, besides the root, an entry `"loop"` whose
chain enters the FAT cycle at sector 5, an entry `"oob"` whose start sector
200 lies beyond the image, and an entry `"small"` whose size is below the
mini-sector cutoff while no mini pool exists. -/
def imgA : List Nat :=
  mkHeader 4096 ENDOFCHAIN ++
    fatSecA.flatMap u32le ++
    mkDirEntry "Root Entry" ENDOFCHAIN 0 ++
    mkDirEntry "loop" 5 8192 ++
    mkDirEntry "oob" 200 8192 ++
    mkDirEntry "small" 6 10 ++
    List.replicate 128 0 ++
    sector6A

/-- The sector pool `VbaProject::new` builds from image A. -/
def sectorsA : Sector := ⟨imgA.drop 512, 128, fatSecA⟩

/-- FAT of image C: directory chain 1→2→3, one-sector chains at 4 (mini
stream), 5 (mini FAT) and 6 (regular stream data). -/
def fatSecC : List Nat :=
  [FREESECT, 2, 3, ENDOFCHAIN, ENDOFCHAIN, ENDOFCHAIN, ENDOFCHAIN] ++
    List.replicate 25 FREESECT

/-- Content of image C's mini stream (sector 4). -/
def sector4C : List Nat := (List.range 128).map (fun i => 10 + i)

/-- Content of image C's sector 6 (`"big"`'s stream data). -/
def sector6C : List Nat := (List.range 128).map (fun i => 20 + i)

/-- Image C: a CFB image with a mini pool (root stream of 64 bytes, one
mini-FAT sector) and `mini_sector_cutoff = 8`; entry `"mini"` (size 5) is
below the cutoff and backed by mini sector 0, entry `"big"` (size 10) is at
or above the cutoff and backed by regular sector 6. -/
def imgC : List Nat :=
  mkHeader 8 5 ++
    fatSecC.flatMap u32le ++
    mkDirEntry "Root Entry" 4 64 ++
    mkDirEntry "mini" 0 5 ++
    mkDirEntry "big" 6 10 ++
    sector4C ++
    (u32le ENDOFCHAIN ++ (List.replicate 31 FREESECT).flatMap u32le) ++
    sector6C

/-! ## Fixtures for the worksheet and reference claims -/

/-- Lexed events of a sparse worksheet: dimension `A1:B2` (a 2×2 extent) but
a single `<c><v>7</v></c>` cell. -/
def sparseEvents : List XmlEvent :=
  [.start "dimension" [("ref", "A1:B2")], .start "sheetData" [],
   .start "c" [], .start "v" [], .text "7", .endTag "v", .endTag "c",
   .endTag "sheetData"]

/-- The `Range` the worksheet parser produces from `sparseEvents`. -/
def sparseRange : Range := ⟨(1, 1), (2, 2), [.int 7]⟩

/-- Lexed events of a worksheet with one shared-string cell
`<c t="s"><v>v</v></c>` and no dimension element. -/
def mkSCellEvents (v : String) : List XmlEvent :=
  [.start "sheetData" [], .start "c" [("t", "s")], .start "v" [], .text v,
   .endTag "v", .endTag "c", .endTag "sheetData"]

/-- A non-empty all-digit string (the inputs quantified over by the
digit-only row claim). -/
def AllDigits (s : String) : Prop :=
  s.data ≠ [] ∧ ∀ c ∈ s.data, isDigitB c = true

/-- Byte encoding of one well-formed `REFERENCENAME` (`0x0016`) record:
tag, 32-bit name length, name bytes, the 2 skipped bytes, and an empty
unicode-name record. -/
def mkRefName (nm : List Nat) : List Nat :=
  [0x16, 0x00] ++ u32le nm.length ++ nm ++ [0, 0] ++ u32le 0

/-- The `Reference` committed for a `REFERENCENAME` record carrying the
ASCII bytes `nm` (name and description are the decoded name, path is the
initial `"/"`). -/
def refOf (nm : List Nat) : Reference :=
  ⟨String.mk (nm.map Char.ofNat), String.mk (nm.map Char.ofNat), "/"⟩

/-- Reference names whose records parse cleanly: non-empty (so the commit
rule fires), within the 512-byte scratch buffer, and ASCII (so the UTF-8
decode succeeds). -/
def GoodNames (names : List (List Nat)) : Prop :=
  ∀ nm ∈ names, nm ≠ [] ∧ nm.length ≤ 512 ∧ ∀ b ∈ nm, b < 128

/-- A tiny two-sector pool whose chain `1 → 0 → ENDOFCHAIN` is wholly in
bounds, used to witness the chain-termination theorem. -/
def demoSector : Sector := ⟨List.replicate 8 7, 4, [ENDOFCHAIN, 0]⟩

/-! ## Theorems -/

theorem grcLoop_digits (l : List Char) (h : ∀ c ∈ l, isDigitB c = true)
    (col pow rowpos : Nat) :
    grcLoop l col pow rowpos true = .ok (col, pow, rowpos - l.length, true) := by
  induction l generalizing rowpos with
  | nil => simp [grcLoop]
  | cons c rest ih =>
    have hc : isDigitB c = true := h c (by simp)
    have hrest : ∀ x ∈ rest, isDigitB x = true := fun x hx => h x (by simp [hx])
    rw [grcLoop, if_pos hc, if_pos rfl, ih hrest]
    have : rowpos - 1 - rest.length = rowpos - (rest.length + 1) := by omega
    simp [this]

theorem parseU32_digits (l : List Char) (hne : l ≠ [])
    (hdig : ∀ c ∈ l, isDigitB c = true) (hv : digitsVal l ≤ 4294967295) :
    parseU32 l = some (digitsVal l) := by
  unfold parseU32 parseUnsigned
  cases l with
  | nil => simp at hne
  | cons c rest =>
    have hc := hdig c (by simp)
    have hcp : ¬(c = '+') := by
      intro h
      rw [h] at hc
      simp [isDigitB] at hc
    have hall : (c :: rest).all isDigitB = true := List.all_eq_true.mpr hdig
    simp [hcp, hall, hv]

theorem get_row_column_digits (s : String) (h : AllDigits s)
    (hv : digitsVal s.data ≤ 4294967295) :
    get_row_column s = .ok (digitsVal s.data, 0) := by
  obtain ⟨hne, hdig⟩ := h
  have hrev : ∀ c ∈ s.data.reverse, isDigitB c = true := by
    intro c hc
    exact hdig c (List.mem_reverse.mp hc)
  unfold get_row_column
  rw [grcLoop_digits _ hrev]
  simp only [List.length_reverse, Nat.sub_self, List.drop_zero]
  rw [parseU32_digits s.data hne hdig hv]

theorem readChainFuel_isOk (s : Sector) :
    ∀ (n fuel id : Nat), chainReachesEnd s n id = true → n < fuel →
      (readChainFuel s fuel id).isOk = true := by
  intro n
  induction n with
  | zero =>
    intro fuel id h hf
    cases fuel with
    | zero => omega
    | succ f =>
      simp [chainReachesEnd] at h
      simp [readChainFuel, h, PResult.isOk]
  | succ n ih =>
    intro fuel id h hf
    cases fuel with
    | zero => omega
    | succ f =>
      by_cases hid : id = ENDOFCHAIN
      · simp [readChainFuel, hid, PResult.isOk]
      · simp [chainReachesEnd, hid] at h
        obtain ⟨hget, hfat⟩ := h
        obtain ⟨bytes, hb⟩ := Option.isSome_iff_exists.mp hget
        cases hnx : s.fats[id]? with
        | none => rw [hnx] at hfat; simp at hfat
        | some nxt =>
          rw [hnx] at hfat
          have hrec := ih f nxt hfat (by omega)
          rw [readChainFuel, if_neg hid, hb, List.get?_eq_getElem?, hnx]
          cases hres : readChainFuel s f nxt <;>
            simp [hres, PResult.isOk] at hrec ⊢

theorem read_chain_terminates (s : Sector) (id n : Nat)
    (hn : n ≤ s.fats.length) (h : chainReachesEnd s n id = true) :
    (s.read_chain id).isOk = true :=
  readChainFuel_isOk s n (s.fats.length + 1) id h (by omega)

theorem chainDiverges_of_selfLoop (s : Sector) (id : Nat)
    (hne : id ≠ ENDOFCHAIN) (hget : (s.sectGet? id).isSome = true)
    (hfat : s.fats.get? id = some id) : chainDiverges s id := by
  intro fuel
  induction fuel with
  | zero => rfl
  | succ f ih =>
    obtain ⟨bytes, hb⟩ := Option.isSome_iff_exists.mp hget
    have hfat' : s.fats[id]? = some id := by
      rw [← List.get?_eq_getElem?]
      exact hfat
    simp [readChainFuel, hne, hb, hfat', ih]

theorem wsLoop_count (strings : List String) (mode : WsMode) (data : Range)
    (evs : List XmlEvent) (out : Range)
    (h : wsLoop strings mode data evs = .ok out) :
    out.inner.length = data.inner.length + countCells mode evs := by
  induction mode, data, evs using wsLoop.induct strings
  case case7 data attrs rest hnone =>
    rw [wsLoop, hnone] at h
    simp at h
  all_goals simp_all [wsLoop, countCells] <;> omega

example (strings : List String) (v : String) (idx : Nat)
    (h1 : parseUsize v.data = some idx) (h2 : idx < strings.length) :
    from_worksheet strings (mkSCellEvents v) =
      .ok ⟨(0, 0), (0, 0), [.string (strings.get ⟨idx, h2⟩)]⟩ := by
  have hg : strings.get? idx = some (strings.get ⟨idx, h2⟩) := by
    simp [List.get?_eq_getElem?, List.getElem?_eq_getElem h2, List.get_eq_getElem]
  simp [from_worksheet, mkSCellEvents, wsLoop, Range.default, cellValue, h1,
    List.get?_eq_getElem?, List.getElem?_eq_getElem h2, List.get_eq_getElem]

theorem rdU16_cons (a b : Nat) (r : List Nat) :
    rdU16 (a :: b :: r) = .ok (a + 256 * b, r) := rfl

theorem rdU32_cons (a b c d : Nat) (r : List Nat) :
    rdU32 (a :: b :: c :: d :: r) = .ok (a + 256 * b + 65536 * c + 16777216 * d, r) := rfl

theorem rdU32_u32le (n : Nat) (hn : n < 4294967296) (r : List Nat) :
    rdU32 (u32le n ++ r) = .ok (n, r) := by
  simp only [u32le, List.cons_append, List.nil_append, rdU32_cons]
  congr 2
  omega

theorem rdExact_append (a b : List Nat) : rdExact a.length (a ++ b) = .ok (a, b) := by
  simp [rdExact, List.take_left, List.drop_left]

theorem utf8Decode_ascii (l : List Nat) (h : ∀ b ∈ l, b < 128) :
    utf8Decode l = some (l.map Char.ofNat) := by
  induction l with
  | nil => rfl
  | cons b rest ih =>
    have hb : b < 128 := h b (by simp)
    have hrest : ∀ x ∈ rest, x < 128 := fun x hx => h x (by simp [hx])
    rw [utf8Decode.eq_def]
    simp only [if_pos (show b < 0x80 by omega), ih hrest, Option.map_some]
    rfl

theorem rdExact_zero (l : List Nat) : rdExact 0 l = .ok ([], l) := by
  simp [rdExact]

theorem refsLoop_end (fuel : Nat) (refs : List Reference) (ref : Reference) :
    refsLoop (fuel + 1) refs ref [0x0F, 0x00] = .ok (commitRef refs ref) := rfl

theorem refsLoop_step (fuel : Nat) (refs : List Reference) (ref : Reference)
    (nm rest : List Nat) (h2 : nm.length ≤ 512)
    (h3 : ∀ b ∈ nm, b < 128) :
    refsLoop (fuel + 1) refs ref (mkRefName nm ++ rest) =
      refsLoop fuel (commitRef refs ref) (refOf nm) rest := by
  have hlen : nm.length < 4294967296 := by omega
  have h2' : rdExact 2 (0 :: 0 :: (u32le 0 ++ rest)) = .ok ([0, 0], u32le 0 ++ rest) :=
    rdExact_append [0, 0] (u32le 0 ++ rest)
  have h512 : ¬(512 < nm.length) := by omega
  rw [refsLoop]
  simp only [mkRefName, List.append_assoc, List.cons_append, List.nil_append,
    rdU16_cons, Nat.mul_zero, Nat.add_zero, reduceIte,
    rdU32_u32le nm.length hlen, h512, rdExact_append nm,
    strFromUtf8, utf8Decode_ascii nm h3, h2', rdU32_u32le 0 (by norm_num),
    rdExact_zero, refOf, if_false]
  norm_num

theorem flatMap_mkRefName_length (names : List (List Nat)) :
    names.length ≤ (names.flatMap mkRefName).length := by
  induction names with
  | nil => simp
  | cons nm rest ih =>
    simp only [List.flatMap_cons, List.length_cons, List.length_append]
    have : 12 ≤ (mkRefName nm).length := by simp [mkRefName, u32le]
    omega

theorem refsLoop_spec (names : List (List Nat)) :
    ∀ (fuel : Nat) (refs : List Reference) (ref : Reference), GoodNames names →
      names.length < fuel →
      refsLoop fuel refs ref (names.flatMap mkRefName ++ [0x0F, 0x00]) =
        .ok (commitRef refs ref ++ names.map refOf) := by
  induction names with
  | nil =>
    intro fuel refs ref _ hf
    match fuel, hf with
    | fuel + 1, _ => simp [refsLoop_end]
  | cons nm rest ih =>
    intro fuel refs ref hg hf
    match fuel, hf with
    | fuel + 1, hf =>
      obtain ⟨h1, h2, h3⟩ := hg nm (by simp)
      have hg' : GoodNames rest := fun x hx => hg x (by simp [hx])
      rw [List.flatMap_cons, List.append_assoc,
        refsLoop_step fuel refs ref nm _ h2 h3,
        ih fuel _ _ hg' (by simp only [List.length_cons] at hf; omega)]
      have hne : (refOf nm).name.data.isEmpty = false := by
        simp [refOf]
        exact h1
      have hcomm : commitRef (commitRef refs ref) (refOf nm) =
          commitRef refs ref ++ [refOf nm] := by
        simp [commitRef, hne]
      rw [hcomm]
      simp

theorem read_references_spec (names : List (List Nat)) (h : GoodNames names) :
    read_references (names.flatMap mkRefName ++ [0x0F, 0x00]) = .ok (names.map refOf) := by
  unfold read_references
  rw [refsLoop_spec names _ [] ⟨"", "", "/"⟩ h (by
    have := flatMap_mkRefName_length names
    simp only [List.length_append]
    omega)]
  simp [commitRef]

/-- C1: evaluating `get_dimension` at the range `"A1:B3"` (top-left `(1,1)`,
bottom-right `(3,2)`): the source returns the extent pair `(3, 2)` =
`(row span, column span)` = `(height, width)`, not the claimed
`(col2-col1+1, row2-row1+1)` = `(2, 3)`; the single-cell case does return
`((row, col), (1, 1))`. -/
theorem claim_C1_get_dimension_swapped :
    get_dimension "A1:B3" = .ok ((1, 1), (3, 2)) ∧
      get_dimension "A1" = .ok ((1, 1), (1, 1)) :=
  ⟨by decide, by decide⟩

theorem claim_C2_counterexample :
    from_worksheet [] sparseEvents = .ok sparseRange ∧
      sparseRange.inner.length ≠ sparseRange.size.1 * sparseRange.size.2 :=
  ⟨by decide, by decide⟩

/-- C2 (amended): the cell vector of a fully loaded `Range` has exactly one
entry per `<c>` cell read from `sheetData` (`countCells`), which the parser
never compares against the dimension extent, so its length need not equal
`width * height`. -/
theorem claim_C2_cell_count (strings : List String) (evs : List XmlEvent)
    (r : Range) (h : from_worksheet strings evs = .ok r) :
    r.inner.length = countCells .top evs := by
  have := wsLoop_count strings .top Range.default evs r h
  simpa [Range.default] using this

theorem claim_C2_cell_count_witness :
    from_worksheet [] sparseEvents = .ok sparseRange ∧
      sparseRange.inner.length = countCells .top sparseEvents :=
  ⟨by decide, claim_C2_cell_count [] sparseEvents sparseRange (by decide)⟩

theorem claim_C3_counterexample :
    from_worksheet ["a"] (mkSCellEvents "5") = .panic "index out of bounds" := by
  decide

/-- C3 (amended): a shared-string cell whose `<v>` index parses and is in
range for the table recovers `String(table[idx])` exactly; an out-of-range
index makes `strings[idx]` panic (an aborted process, not a returned error,
and not a silent empty cell). -/
theorem claim_C3_shared_string (strings : List String) (v : String) (idx : Nat)
    (h1 : parseUsize v.data = some idx) (h2 : idx < strings.length) :
    from_worksheet strings (mkSCellEvents v) =
      .ok ⟨(0, 0), (0, 0), [.string (strings.get ⟨idx, h2⟩)]⟩ := by
  have hg : strings.get? idx = some (strings.get ⟨idx, h2⟩) := by
    simp [List.get?_eq_getElem?, List.getElem?_eq_getElem h2, List.get_eq_getElem]
  simp [from_worksheet, mkSCellEvents, wsLoop, Range.default, cellValue, h1,
    List.get?_eq_getElem?, List.getElem?_eq_getElem h2, List.get_eq_getElem]

theorem claim_C3_shared_string_witness :
    parseUsize ("0" : String).data = some 0 ∧ 0 < (["hello"] : List String).length ∧
      from_worksheet ["hello"] (mkSCellEvents "0") =
        .ok ⟨(0, 0), (0, 0), [.string "hello"]⟩ :=
  ⟨rfl, by decide, claim_C3_shared_string ["hello"] "0" 0 rfl (by decide)⟩

theorem claim_C4_counterexample :
    (vbaNew imgA).toOption.map VbaProject.sectors = some sectorsA ∧
      (vbaNew imgA).toOption.map (fun p => p.directories.map Directory.sect_start) =
        some [ENDOFCHAIN, 5, 200, 6] ∧
      chainDiverges sectorsA 5 ∧
      (vbaNew imgA).toOption.map (fun p => p.get_stream "loop") = some .diverge :=
  ⟨by decide, by decide,
    chainDiverges_of_selfLoop sectorsA 5 (by decide) (by decide) (by decide),
    by decide⟩

/-- C4 (amended): `read_chain(s)` terminates with the concatenated sector
bytes whenever the FAT chain from `s` reaches `ENDOFCHAIN` within
`fats.length` in-bounds steps; the constructor does not validate this for
directory entries other than the chains it reads itself, so an accepted
image may hold an entry whose chain cycles and never terminates
(`claim_C4_counterexample`). -/
theorem claim_C4_read_chain_terminates (s : Sector) (id n : Nat)
    (hn : n ≤ s.fats.length) (h : chainReachesEnd s n id = true) :
    (s.read_chain id).isOk = true :=
  readChainFuel_isOk s n (s.fats.length + 1) id h (by omega)

theorem claim_C4_read_chain_terminates_witness :
    2 ≤ demoSector.fats.length ∧ chainReachesEnd demoSector 2 1 = true ∧
      (demoSector.read_chain 1).isOk = true :=
  ⟨by decide, by decide,
    claim_C4_read_chain_terminates demoSector 1 2 (by decide) (by decide)⟩

theorem claim_C5_counterexample :
    decompress_stream [0x01, 0x00, 0x00] = .error "Io Eof" := by decide

/-- C5 (amended): a compressed chunk whose declared body extends past the end
of the input is truncated at end-of-input (`min(remaining, declared)`) and
succeeds when no token read straddles the cut — header `0x8FFF` declares
4098 payload bytes but the two available bytes decompress to `[0xAB]` — while
an uncompressed (flag 0) chunk whose 4096-byte body is cut short is not
truncated: its `read_exact` fails with an `Io` error. -/
theorem claim_C5_truncation :
    decompress_stream [0x01, 0xFF, 0x8F, 0x00, 0xAB] = .ok [0xAB] ∧
      decompress_stream [0x01, 0x00, 0x00] = .error "Io Eof" :=
  ⟨by decide, by decide⟩

theorem claim_C6_counterexample :
    (vbaNew imgA).toOption.map (fun p => p.get_stream "small") =
        some (.ok (some [])) ∧
      (vbaNew imgA).toOption.map (fun p => p.sectors.read_chain 6) =
        some (.ok sector6A) ∧
      sector6A.take 10 = [65, 66, 67, 68, 69, 70, 71, 72, 73, 74] :=
  ⟨by decide, by decide, by decide⟩

/-- C6 (amended): `get_stream` scans the directory for a name-equal entry and
truncates to the recorded size; the bytes come from the mini pool when the
size is below the cutoff and a mini pool exists, from the regular pool when
the size is at or above the cutoff, and — contrary to the claim — from
`Vec::new()` (an empty vector, not the regular pool) when the size is below
the cutoff but no mini pool exists. -/
theorem claim_C6_stream_pools :
    (vbaNew imgC).toOption.map (fun p => p.get_stream "mini") =
        some (.ok (some [10, 11, 12, 13, 14])) ∧
      (vbaNew imgC).toOption.map (fun p => p.get_stream "big") =
        some (.ok (some [20, 21, 22, 23, 24, 25, 26, 27, 28, 29])) ∧
      (vbaNew imgA).toOption.map (fun p => p.get_stream "small") =
        some (.ok (some [])) :=
  ⟨by decide, by decide, by decide⟩

theorem claim_C7_counterexample :
    read_references (mkRefName [] ++ [0x0F, 0x00]) = .ok [] := by decide

/-- C7 (amended): a reference section of N consecutive `0x0016` records,
each carrying a non-empty (ASCII, ≤ 512 byte) name, followed by the `0x000F`
terminator, parses to exactly those N references in input order; a `0x0016`
record with an empty name is never committed, so the unrestricted claim
fails (`claim_C7_counterexample`). -/
theorem claim_C7_references (names : List (List Nat)) (h : GoodNames names) :
    read_references (names.flatMap mkRefName ++ [0x0F, 0x00]) =
      .ok (names.map refOf) :=
  read_references_spec names h

theorem claim_C7_references_witness :
    GoodNames [[72, 105], [66]] ∧
      read_references (([[72, 105], [66]] : List (List Nat)).flatMap mkRefName ++
        [0x0F, 0x00]) = .ok [refOf [72, 105], refOf [66]] :=
  ⟨by unfold GoodNames; decide,
    claim_C7_references [[72, 105], [66]] (by unfold GoodNames; decide)⟩

/-- C8: the concrete stream `[0x01, 0x03, 0x80, 0x00, 0xAB]` — signature
byte, little-endian compressed-chunk header `0x8003`, flag byte `0x00`, one
literal byte — decompresses to exactly `[0xAB]`. -/
theorem claim_C8_decompress_literal :
    decompress_stream [0x01, 0x03, 0x80, 0x00, 0xAB] = .ok [0xAB] := by decide

theorem claim_C9_counterexample :
    get_row_column "4294967296" = .error "Parse" := by decide

/-- C9 (amended): every non-empty decimal-digit string whose value fits in a
`u32` is accepted by `get_row_column`, which returns `(value, 0)` — no
column letters are required and the returned column is 0, outside the
1-based range; a digit string above `u32::MAX` fails the row parse instead
(`claim_C9_counterexample`). -/
theorem claim_C9_digit_rows (s : String) (h : AllDigits s)
    (hv : digitsVal s.data ≤ 4294967295) :
    get_row_column s = .ok (digitsVal s.data, 0) :=
  get_row_column_digits s h hv

theorem claim_C9_digit_rows_witness :
    AllDigits "123" ∧ digitsVal ("123" : String).data ≤ 4294967295 ∧
      get_row_column "123" = .ok (123, 0) :=
  ⟨⟨by decide, by decide⟩, by decide, claim_C9_digit_rows "123" ⟨by decide, by decide⟩ (by decide)⟩

/-- C10: image A is accepted by `VbaProject::new`, its directory entry
`"oob"` records start sector 200 with a size above the mini-sector cutoff,
`Sector::get`'s slice `[200*128, 201*128)` lies beyond the 896-byte pool
(the total embedding's `sectGet?` returns `none`), and reading that stream
reaches the out-of-bounds branch — a panic, not a returned error. -/
theorem claim_C10_unchecked_indexing :
    (vbaNew imgA).isOk = true ∧
      (vbaNew imgA).toOption.map
          (fun p => p.directories.map (fun d => (dirGetName d, d.sect_start))) =
        some [("Root Entry", ENDOFCHAIN), ("loop", 5), ("oob", 200), ("small", 6)] ∧
      sectorsA.sectGet? 200 = none ∧
      (vbaNew imgA).toOption.map (fun p => p.get_stream "oob") =
        some (.panic "sector slice out of range") :=
  ⟨by decide, by decide, by decide, by decide⟩
